import Mathlib

set_option maxRecDepth 8000

/-!
Verification of the `rs-bench` Harbor adapters.

The repository consists of adapter classes that return lists of shell
commands for an agent-evaluation host.  The behavioural core is the bash
supervised-restart loop embedded as a string template in
`agents/opencode_adapter.py` (`create_run_agent_commands`, the
`run_command` literal) and duplicated in `qwen3_adapter.py`.  This file
gives a shallow embedding of that loop's semantics, of the command-list
construction in `agents/opencode_adapter.py` and `agents/codex_adapter.py`,
and of the post-run cleanup command of `agents/codex_adapter.py`, and
proves properties of those embeddings.

The bash loop being modelled (variable names from `qwen3_adapter.py`; the
`opencode_adapter.py` template is identical up to the variable and log-file
names):

  QWEN_START=$(date +%s); QWEN_TIMEOUT=...; QWEN_MIN_RESTART=180; QWEN_RUN=1;
  echo "Run $QWEN_RUN starting (budget=...)" | tee -a LOG
  timeout $QWEN_TIMEOUT s opencode ... INITIAL_INSTRUCTION | tee -a LOG
  echo "opencode exited" | tee -a LOG
  while true; do
    QWEN_ELAPSED=$(( $(date +%s) - QWEN_START ));
    QWEN_REMAINING=$(( QWEN_TIMEOUT - QWEN_ELAPSED ));
    echo "Elapsed: ..., Remaining: ..." | tee -a LOG
    if [ $QWEN_REMAINING -lt $QWEN_MIN_RESTART ]; then
      echo "Less than ...s remaining, stopping restart loop" | tee -a LOG
      break;
    fi;
    QWEN_RUN=$((QWEN_RUN + 1));
    echo "Run $QWEN_RUN starting (...s remaining)" | tee -a LOG
    timeout $QWEN_REMAINING s opencode ... CONTINUE_INSTRUCTION | tee -a LOG
    echo "opencode exited" | tee -a LOG
  done;
  echo "Finished after $QWEN_RUN runs" | tee -a LOG

The embedding abstracts the wall clock by a stream of attempt durations:
`dur i` is the number of seconds of wall-clock time that pass between the
measurement taken before attempt `i` starts and the measurement of the loop
iteration that follows it (the attempt itself plus the adjacent
bookkeeping).  Bash arithmetic is signed, so budgets and remaining values
are integers.  The loop is evaluated with explicit fuel: `finished = false`
means the fuel ran out while the loop was still restarting, i.e. only a
prefix of the run was observed.
-/

/-- Exit condition of one attempt: natural zero exit, non-zero exit, or the
`timeout` wrapper killed the process.  The bash loop records nothing about
it and never branches on it; it is carried in the trace only. -/
inductive ExitStatus where
  | completed
  | failed
  | timedOut
deriving DecidableEq

/-- Which instruction an attempt was launched with: the first attempt uses
the caller's instruction, every restart uses the "continue" instruction. -/
inductive Instr where
  | initial
  | continuation
deriving DecidableEq

/-- One execution of the external command within a supervised run
(`QWEN_RUN` numbering, the `timeout` budget it was launched with, and its
exit condition). -/
structure Attempt where
  sequence_number : ℕ
  instr : Instr
  allotted_seconds : ℤ
  exit_status : ExitStatus
deriving DecidableEq

/-- Projection of an attempt that forgets its exit status (everything the
loop's control flow and command construction can depend on). -/
def Attempt.shape (a : Attempt) : ℕ × Instr × ℤ :=
  (a.sequence_number, a.instr, a.allotted_seconds)

/-- One entry appended to the shared log file (`tee -a LOG`) by the run
command, in program order. -/
inductive LogEntry where
  | runStarting (runNo : ℕ) (budget : ℤ)
  | output (runNo : ℕ) (text : String)
  | exited
  | report (elapsed : ℕ) (remaining : ℤ)
  | stopping
  | finished (runs : ℕ)
deriving DecidableEq

/-- The text of an attempt-output log entry, if the entry is one. -/
def LogEntry.outputText : LogEntry → Option String
  | LogEntry.output _ t => some t
  | _ => none

/-- Environment of a supervised run: for each attempt number `i ≥ 1`,
the wall-clock seconds it consumes, the output it produces, and how it
exits.  Durations subsume the `timeout` enforcement: a killed attempt
simply has `dur i` equal to its allotted time. -/
structure Behavior where
  dur : ℕ → ℕ
  out : ℕ → String
  status : ℕ → ExitStatus

/-- The run budget fixed before the loop starts: `QWEN_TIMEOUT` and
`QWEN_MIN_RESTART` (bash integers). -/
structure RunConfig where
  total_seconds : ℤ
  minimum_restart_seconds : ℤ
deriving DecidableEq

/-- The concrete budget the shipped script uses:
`QWEN_TIMEOUT=$\x7bQWEN_TIMEOUT:-1620\x7d` (environment override with
default 1620) and `QWEN_MIN_RESTART=180`. -/
def codeRunConfig (envTimeout : Option ℤ) : RunConfig :=
  { total_seconds := envTimeout.getD 1620, minimum_restart_seconds := 180 }

/-- Observable outcome of running the loop body with some amount of fuel:
log entries appended, attempts launched, the final `QWEN_RUN` value, and
whether the loop reached its `break` (`finished = false` means the fuel was
exhausted first, i.e. we observed only a prefix of the run). -/
structure LoopOut where
  log : List LogEntry
  attempts : List Attempt
  finalRun : ℕ
  finished : Bool
deriving DecidableEq

/-- The `while true` restart loop, entered after the first attempt has
already run.  `elapsed` is the wall-clock time consumed so far
(`$(date +%s) - QWEN_START` at the head of the iteration) and `runNo` the
current `QWEN_RUN`.  Each iteration: report elapsed/remaining, stop if
`remaining < minimum_restart_seconds`, otherwise increment the run
counter, launch the next attempt with `timeout remaining`, and iterate. -/
def restartLoop (cfg : RunConfig) (beh : Behavior) : ℕ → ℕ → ℕ → LoopOut
  | 0, _, runNo => ⟨[], [], runNo, false⟩
  | fuel + 1, elapsed, runNo =>
    if cfg.total_seconds - (elapsed : ℤ) < cfg.minimum_restart_seconds then
      ⟨[LogEntry.report elapsed (cfg.total_seconds - (elapsed : ℤ)), LogEntry.stopping],
       [], runNo, true⟩
    else
      ⟨LogEntry.report elapsed (cfg.total_seconds - (elapsed : ℤ))
         :: LogEntry.runStarting (runNo + 1) (cfg.total_seconds - (elapsed : ℤ))
         :: LogEntry.output (runNo + 1) (beh.out (runNo + 1))
         :: LogEntry.exited
         :: (restartLoop cfg beh fuel (elapsed + beh.dur (runNo + 1)) (runNo + 1)).log,
       ⟨runNo + 1, Instr.continuation, cfg.total_seconds - (elapsed : ℤ),
          beh.status (runNo + 1)⟩
         :: (restartLoop cfg beh fuel (elapsed + beh.dur (runNo + 1)) (runNo + 1)).attempts,
       (restartLoop cfg beh fuel (elapsed + beh.dur (runNo + 1)) (runNo + 1)).finalRun,
       (restartLoop cfg beh fuel (elapsed + beh.dur (runNo + 1)) (runNo + 1)).finished⟩

/-- The whole supervised run: `QWEN_RUN=1`, first attempt with
`timeout $QWEN_TIMEOUT` and the initial instruction, then the restart
loop, then (once the loop has broken) the final "Finished after N runs"
log line.  The final line is appended only on a finished run because an
unfinished `LoopOut` is a proper prefix of the real execution. -/
def supervisedRun (cfg : RunConfig) (beh : Behavior) (fuel : ℕ) : LoopOut :=
  ⟨LogEntry.runStarting 1 cfg.total_seconds
     :: LogEntry.output 1 (beh.out 1)
     :: LogEntry.exited
     :: ((restartLoop cfg beh fuel (beh.dur 1) 1).log
          ++ (if (restartLoop cfg beh fuel (beh.dur 1) 1).finished then
                [LogEntry.finished (restartLoop cfg beh fuel (beh.dur 1) 1).finalRun]
              else [])),
   ⟨1, Instr.initial, cfg.total_seconds, beh.status 1⟩
     :: (restartLoop cfg beh fuel (beh.dur 1) 1).attempts,
   (restartLoop cfg beh fuel (beh.dur 1) 1).finalRun,
   (restartLoop cfg beh fuel (beh.dur 1) 1).finished⟩

/-- A supervised run terminates if some amount of fuel lets the loop reach
its `break`. -/
def supervisedTerminates (cfg : RunConfig) (beh : Behavior) : Prop :=
  ∃ fuel, (supervisedRun cfg beh fuel).finished = true

/-- Behavior in which every attempt exits instantly (0 wall-clock seconds),
producing no output. -/
def zeroBeh : Behavior :=
  { dur := fun _ => 0, out := fun _ => "", status := fun _ => ExitStatus.completed }

/-- Behavior in which every attempt consumes exactly one second. -/
def onesBeh : Behavior :=
  { dur := fun _ => 1, out := fun _ => "", status := fun _ => ExitStatus.completed }

/-- Concrete behavior used by witnesses: every attempt takes 40 seconds. -/
def fortyBeh : Behavior :=
  { dur := fun _ => 40, out := fun _ => "", status := fun _ => ExitStatus.completed }

/-- Wall-clock time consumed by attempts `1..n`. -/
def sumDur (beh : Behavior) (n : ℕ) : ℕ :=
  (Finset.range n).sum (fun i => beh.dur (i + 1))

/-- The fixed text prepended to the caller's instruction to form the
continuation instruction (the string literal passed to `shlex.quote` in
`create_run_agent_commands`, identical in `agents/opencode_adapter.py`
and `qwen3_adapter.py`). -/
def continuationPreamble : String :=
  "You were previously working on this task but stopped early. " ++
  "There is still time remaining. Check the current game state with " ++
  "sdk.getState() and CONTINUE training. Do NOT write a summary — " ++
  "keep grinding. "

/-- The instruction passed to every restart attempt:
`continue_instruction = shlex.quote(PREAMBLE + instruction)`; this is the
unquoted instruction content. -/
def continuationInstruction (instruction : String) : String :=
  continuationPreamble ++ instruction

/- ------------------------------------------------------------------ -/
/- Command-list construction (agents/opencode_adapter.py,              -/
/- agents/codex_adapter.py).                                           -/
/- ------------------------------------------------------------------ -/

/-- One command handed to the host to execute: the shell command text,
the explicit environment mapping, an optional working directory and an
optional host-level timeout (the fields of the host's `ExecInput`). -/
structure ExecInput where
  command : String
  env : List (String × String)
  cwd : Option String
  timeout_sec : Option ℤ
deriving DecidableEq

/-- `d[k] = v` on an insertion-ordered string dictionary: overwrite the
first binding of `k` in place, otherwise append the new binding. -/
def dictSet : List (String × String) → String → String → List (String × String)
  | [], k, v => [(k, v)]
  | kv :: rest, k, v => if kv.1 = k then (k, v) :: rest else kv :: dictSet rest k v

/-- `d.pop(k, None)`: drop the binding of `k`, keeping the others in
order. -/
def dictPop : List (String × String) → String → List (String × String)
  | [], _ => []
  | kv :: rest, k => if kv.1 = k then dictPop rest k else kv :: dictPop rest k

/-- `d.get(k)`: the first binding of `k`, if any. -/
def dictGet : List (String × String) → String → Option String
  | [], _ => none
  | kv :: rest, k => if kv.1 = k then some kv.2 else dictGet rest k

/-- Characters `shlex.quote` treats as safe: ASCII alphanumerics,
underscore, at, percent, plus, equals, colon, comma, dot, slash and dash
(the CPython regex is compiled with `re.ASCII`). -/
def shlexSafeChar (c : Char) : Bool :=
  c.isAlphanum || c = '_' || c = '@' || c = '%' || c = '+' || c = '=' ||
  c = ':' || c = ',' || c = '.' || c = '/' || c = '-'

/-- `shlex.quote`: the empty string becomes two quotes, a fully safe
string is returned unchanged, anything else is wrapped in single quotes
with each embedded quote replaced by the quote-dquote-quote-dquote-quote
sequence. -/
def shlexQuote (s : String) : String :=
  if s = "" then "\x27\x27"
  else if s.all shlexSafeChar then s
  else "\x27" ++ String.replace s ("\x27") ("\x27\"\x27\"\x27") ++ "\x27"

/-- JSON values as built by `_build_opencode_config` (strings, booleans,
arrays and insertion-ordered objects suffice). -/
inductive JsonVal where
  | str (s : String)
  | bool (b : Bool)
  | arr (elems : List JsonVal)
  | obj (fields : List (String × JsonVal))

/-- Lower-case hexadecimal digit, as Python prints in `\uXXXX` escapes. -/
def hexDigitChar (n : ℕ) : Char :=
  if n < 10 then Char.ofNat (48 + n) else Char.ofNat (87 + n)

/-- A single `\uXXXX` escape. -/
def jsonUnicodeEscape (n : ℕ) : String :=
  String.mk ['\\', 'u', hexDigitChar (n / 4096 % 16), hexDigitChar (n / 256 % 16),
             hexDigitChar (n / 16 % 16), hexDigitChar (n % 16)]

/-- `json.dumps` character escaping with the default `ensure_ascii`:
quote, backslash and the short control escapes, `\uXXXX` (with surrogate
pairs beyond the BMP) for other control or non-ASCII characters. -/
def jsonEscapeChar (c : Char) : String :=
  if c = '"' then "\\\""
  else if c = '\\' then "\\\\"
  else if c = '\n' then "\\n"
  else if c = '\t' then "\\t"
  else if c = '\r' then "\\r"
  else if c.toNat = 8 then "\\b"
  else if c.toNat = 12 then "\\f"
  else if c.toNat < 32 || 126 < c.toNat then
    if c.toNat ≤ 65535 then jsonUnicodeEscape c.toNat
    else jsonUnicodeEscape (55296 + (c.toNat - 65536) / 1024)
           ++ jsonUnicodeEscape (56320 + (c.toNat - 65536) % 1024)
  else String.singleton c

/-- A JSON string literal with its escapes. -/
def jsonQuoteString (s : String) : String :=
  "\"" ++ String.join (s.data.map jsonEscapeChar) ++ "\""

/-- Two spaces per nesting level (`json.dumps(..., indent=2)`). -/
def jsonIndentStr (level : ℕ) : String :=
  String.mk (List.replicate (2 * level) ' ')

mutual

/-- `json.dumps(value, indent=2)`: containers open a line, print their
items at the next indent level separated by comma-newline, and close at
the enclosing level; empty containers print inline. -/
def jsonDump : ℕ → JsonVal → String
  | _, JsonVal.str s => jsonQuoteString s
  | _, JsonVal.bool b => if b then "true" else "false"
  | _, JsonVal.arr [] => "[]"
  | lvl, JsonVal.arr (x :: xs) =>
    "[\n" ++ jsonDumpArr (lvl + 1) x xs ++ "\n" ++ jsonIndentStr lvl ++ "]"
  | _, JsonVal.obj [] => "\x7b\x7d"
  | lvl, JsonVal.obj (f :: fs) =>
    "\x7b\n" ++ jsonDumpObj (lvl + 1) f fs ++ "\n" ++ jsonIndentStr lvl ++ "\x7d"
termination_by _ j => sizeOf j

/-- The comma-newline separated items of a JSON array. -/
def jsonDumpArr : ℕ → JsonVal → List JsonVal → String
  | lvl, x, [] => jsonIndentStr lvl ++ jsonDump lvl x
  | lvl, x, y :: ys =>
    jsonIndentStr lvl ++ jsonDump lvl x ++ ",\n" ++ jsonDumpArr lvl y ys
termination_by _ x xs => sizeOf x + sizeOf xs

/-- The comma-newline separated `"key": value` fields of a JSON object. -/
def jsonDumpObj : ℕ → (String × JsonVal) → List (String × JsonVal) → String
  | lvl, (k, v), [] => jsonIndentStr lvl ++ jsonQuoteString k ++ ": " ++ jsonDump lvl v
  | lvl, (k, v), g :: gs =>
    jsonIndentStr lvl ++ jsonQuoteString k ++ ": " ++ jsonDump lvl v ++ ",\n"
      ++ jsonDumpObj lvl g gs
termination_by _ f fs => sizeOf f + sizeOf fs

end

/-- One MCP server supplied to the adapter (`self.mcp_servers` entries:
name, transport kind as a string, command and arguments for stdio
transports, URL otherwise). -/
structure McpServer where
  name : String
  transport : String
  command : String
  args : List String
  url : String
deriving DecidableEq

/-- The `mcp` config object entry for one server, as
`_build_opencode_config` builds it: stdio servers become local commands,
everything else a remote URL, both enabled. -/
def mcpServerConfigEntry (server : McpServer) : String × JsonVal :=
  if server.transport = ("stdio") then
    (server.name, JsonVal.obj
      [("type", JsonVal.str ("local")),
       ("command", JsonVal.arr ((server.command :: server.args).map JsonVal.str)),
       ("enabled", JsonVal.bool true)])
  else
    (server.name, JsonVal.obj
      [("type", JsonVal.str ("remote")),
       ("url", JsonVal.str server.url),
       ("enabled", JsonVal.bool true)])

/-- `model_id.split("/", 1)`: the part before the first slash and the
rest rejoined. -/
def splitFirstSlash (s : String) : String × String :=
  match s.splitOn ("/") with
  | [] => (s, "")
  | [x] => (x, "")
  | x :: rest => (x, String.intercalate ("/") rest)

/-- `_build_opencode_config`: provider and model derived from
`self.model_name or default`, permissive permissions, and the optional
`mcp` section appended when servers are configured (field order is the
Python dict insertion order). -/
def buildOpencodeConfig (modelNameAttr defaultModel : String)
    (mcpServers : List McpServer) : JsonVal :=
  let model_id := if modelNameAttr = "" then defaultModel else modelNameAttr
  let provider_name :=
    if model_id.contains '/' then (splitFirstSlash model_id).1 else "openrouter"
  let model_suffix :=
    if model_id.contains '/' then (splitFirstSlash model_id).2 else model_id
  let base :=
    [("$schema", JsonVal.str ("https://opencode.ai/config.json")),
     ("provider", JsonVal.obj
        [(provider_name, JsonVal.obj [("models", JsonVal.obj [(model_suffix, JsonVal.obj [])])])]),
     ("model", JsonVal.str model_id),
     ("permission", JsonVal.obj [("*", JsonVal.str ("allow"))])]
  if mcpServers.isEmpty then JsonVal.obj base
  else JsonVal.obj (base ++ [("mcp", JsonVal.obj (mcpServers.map mcpServerConfigEntry))])

/-- `_original_env.get("OPENROUTER_API_KEY") or os.environ.get("OPENROUTER_API_KEY", "")`:
the class-load snapshot value when it is non-empty (truthy), otherwise
the ambient process environment read at call time. -/
def resolveOpenrouterKey (snapshotKey : String) (ambient : String → String) : String :=
  if snapshotKey = "" then ambient ("OPENROUTER_API_KEY") else snapshotKey

/-- The environment handed to both commands: the OpenRouter key plus the
two OpenCode permission toggles, with empty values filtered out. -/
def opencodeEnv (openrouterKey : String) : List (String × String) :=
  ([("OPENROUTER_API_KEY", openrouterKey),
    ("OPENCODE_YOLO", ("true")),
    ("OPENCODE_DANGEROUSLY_SKIP_PERMISSIONS", ("true"))]).filter
    (fun kv => kv.2 ≠ "")

/-- The setup command: write the escaped config to `/app/opencode.json`
and log it. -/
def opencodeSetupCommand (logPre escapedConfig : String) : String :=
  "echo " ++ escapedConfig ++ " > /app/opencode.json && " ++
  "echo \x27[" ++ logPre ++ "-setup] Wrote /app/opencode.json\x27"

/-- The run command string: the full bash restart-loop template of
`OpenCodeAdapter.create_run_agent_commands`, with the adapter's log
prefix, its upper-cased variable prefix, the log file, and the escaped
model/instruction strings spliced in. -/
def opencodeRunCommand (logPre logFile escapedModel escapedInstruction
    continueInstr : String) : String :=
  let vp := logPre.map Char.toUpper
  "echo \x27[" ++ logPre ++ "-setup] Starting game services...\x27; " ++
  "/ensure-services.sh; " ++
  "echo \x27[" ++ logPre ++ "-setup] Services ready, starting opencode\x27; " ++
  "cd /app; " ++
  vp ++ "_START=$(date +%s); " ++
  vp ++ "_TIMEOUT=$\x7b" ++ vp ++ "_TIMEOUT:-1620\x7d; " ++
  vp ++ "_MIN_RESTART=180; " ++
  vp ++ "_RUN=1; " ++
  "echo \"[" ++ logPre ++ "-loop] Run $" ++ vp ++ "_RUN starting (budget=$\x7b" ++ vp ++
    "_TIMEOUT\x7ds)\" | tee -a /logs/agent/" ++ logFile ++ "; " ++
  "timeout $\x7b" ++ vp ++ "_TIMEOUT\x7ds opencode --model " ++ escapedModel ++
    " run --format=json " ++ escapedInstruction ++ " " ++
  "2>&1 </dev/null | tee -a /logs/agent/" ++ logFile ++ "; " ++
  "echo \x27[" ++ logPre ++ "-loop] opencode exited\x27 | tee -a /logs/agent/" ++
    logFile ++ "; " ++
  "while true; do " ++
  "  " ++ vp ++ "_ELAPSED=$(( $(date +%s) - " ++ vp ++ "_START )); " ++
  "  " ++ vp ++ "_REMAINING=$(( " ++ vp ++ "_TIMEOUT - " ++ vp ++ "_ELAPSED )); " ++
  "  echo \"[" ++ logPre ++ "-loop] Elapsed: $\x7b" ++ vp ++
    "_ELAPSED\x7ds, Remaining: $\x7b" ++ vp ++ "_REMAINING\x7ds\" | tee -a /logs/agent/" ++
    logFile ++ "; " ++
  "  if [ $" ++ vp ++ "_REMAINING -lt $" ++ vp ++ "_MIN_RESTART ]; then " ++
  "    echo \"[" ++ logPre ++ "-loop] Less than $\x7b" ++ vp ++
    "_MIN_RESTART\x7ds remaining, stopping restart loop\" | tee -a /logs/agent/" ++
    logFile ++ "; " ++
  "    break; " ++
  "  fi; " ++
  "  " ++ vp ++ "_RUN=$((" ++ vp ++ "_RUN + 1)); " ++
  "  echo \"[" ++ logPre ++ "-loop] Run $" ++ vp ++ "_RUN starting ($\x7b" ++ vp ++
    "_REMAINING\x7ds remaining)\" | tee -a /logs/agent/" ++ logFile ++ "; " ++
  "  timeout $\x7b" ++ vp ++ "_REMAINING\x7ds opencode --model " ++ escapedModel ++
    " run --format=json " ++ continueInstr ++ " " ++
  "  2>&1 </dev/null | tee -a /logs/agent/" ++ logFile ++ "; " ++
  "  echo \x27[" ++ logPre ++ "-loop] opencode exited\x27 | tee -a /logs/agent/" ++
    logFile ++ "; " ++
  "done; " ++
  "echo \"[" ++ logPre ++ "-loop] Finished after $" ++ vp ++ "_RUN runs\" | tee -a /logs/agent/" ++
    logFile

/-- `OpenCodeAdapter.create_run_agent_commands` (also
`Qwen3OpenCode.create_run_agent_commands` up to the fixed prefix, log
file and default model): escape the instruction, resolve the OpenRouter
key from the class-load snapshot with ambient fallback, build the
filtered environment and the config JSON, and return the setup and run
commands, both with the same environment. -/
def opencodeCreateRunAgentCommands (defaultModel logPre logFile : String)
    (snapshotKey : String) (ambient : String → String) (modelNameAttr : String)
    (mcpServers : List McpServer) (instruction : String) : List ExecInput :=
  let escaped_instruction := shlexQuote instruction
  let openrouter_key := resolveOpenrouterKey snapshotKey ambient
  let env := opencodeEnv openrouter_key
  let config_json := jsonDump 0 (buildOpencodeConfig modelNameAttr defaultModel mcpServers)
  let escaped_config := shlexQuote config_json
  let model_name := if modelNameAttr = "" then defaultModel else modelNameAttr
  let setup_command := opencodeSetupCommand logPre escaped_config
  let escaped_model := shlexQuote model_name
  let continue_instruction := shlexQuote (continuationInstruction instruction)
  let run_command := opencodeRunCommand logPre logFile escaped_model escaped_instruction
      continue_instruction
  [ExecInput.mk setup_command env none none, ExecInput.mk run_command env none none]

/-- The OAuth setup command `CodexWithTimeout` substitutes for the base
setup command when `CODEX_AUTH_JSON_B64` is set (triple-quoted literal
in the source, hence the surrounding newlines). -/
def codexOauthSetupCommand : String :=
  "\nmkdir -p /tmp/codex-secrets\n" ++
  "echo \"$CODEX_AUTH_JSON_B64\" | base64 -d > /tmp/codex-secrets/auth.json\n" ++
  "ln -sf /tmp/codex-secrets/auth.json \"$CODEX_HOME/auth.json\"\n"

/-- The post-run cleanup command appended by
`CodexWithTimeout.create_run_agent_commands`. -/
def codexCleanupCommand : String :=
  "cd \"$CODEX_HOME\" && " ++
  "rm -rf tmp/ skills/ 2>/dev/null; " ++
  "rm -f *.sqlite *.sqlite-wal *.sqlite-shm auth.json .lock 2>/dev/null; " ++
  "echo \"Cleaned up codex home, remaining:\"; ls -la \"$CODEX_HOME\""

/-- Python truthiness of the optional `run_timeout_sec` integer. -/
def truthyTimeout : Option ℤ → Bool
  | none => false
  | some t => t != 0

/-- The Modal-timeout block: when `run_timeout_sec` is truthy and there
is more than one command, replace the last command with a copy carrying
`timeout_sec = run_timeout_sec`. -/
def applyModalTimeout (runTimeoutSec : Option ℤ) (commands : List ExecInput) :
    List ExecInput :=
  if truthyTimeout runTimeoutSec && decide (1 < commands.length) then
    match commands.getLast? with
    | none => commands
    | some lastCmd =>
      commands.dropLast
        ++ [ExecInput.mk lastCmd.command lastCmd.env lastCmd.cwd runTimeoutSec]
  else commands

/-- `CodexWithTimeout.create_run_agent_commands` on top of the base
class's command list: when `CODEX_AUTH_JSON_B64` is non-empty, replace
the setup command with the OAuth one (adding `CODEX_AUTH_JSON_B64` to
its environment and removing `OPENAI_API_KEY`, appending the MCP
registration command when present) and rewrite the second command's
environment the same way; then apply the Modal timeout to the last
command; finally append the cleanup command with the (possibly updated)
first command's environment and a 10-second timeout. -/
def codexCreateRunAgentCommands (ambient : String → String) (runTimeoutSec : Option ℤ)
    (mcpCommand : String) (baseCommands : List ExecInput) : List ExecInput :=
  let codex_auth_b64 := ambient ("CODEX_AUTH_JSON_B64")
  let commands1 :=
    match baseCommands with
    | [] => baseCommands
    | setup_cmd :: rest =>
      if codex_auth_b64 = "" then baseCommands
      else
        let env := dictPop (dictSet setup_cmd.env ("CODEX_AUTH_JSON_B64") codex_auth_b64)
          ("OPENAI_API_KEY")
        let setup_command :=
          if mcpCommand = "" then codexOauthSetupCommand
          else codexOauthSetupCommand ++ "\n" ++ mcpCommand
        match rest with
        | [] => [ExecInput.mk setup_command env none none]
        | run1 :: rest2 =>
          let run_env := dictSet (dictPop run1.env ("OPENAI_API_KEY"))
            ("CODEX_AUTH_JSON_B64") codex_auth_b64
          ExecInput.mk setup_command env none none
            :: ExecInput.mk run1.command run_env run1.cwd run1.timeout_sec :: rest2
  let commands2 := applyModalTimeout runTimeoutSec commands1
  let cleanup_env :=
    match commands2.head? with
    | some c => c.env
    | none => []
  commands2 ++ [ExecInput.mk codexCleanupCommand cleanup_env none (some 10)]

/-- Paths removed by `rm -rf tmp/ skills/` relative to `$CODEX_HOME`:
the two directories and everything under them. -/
def isRmRfTarget (path : String) : Bool :=
  path = ("tmp") || path.startsWith ("tmp/") ||
  path = ("skills") || path.startsWith ("skills/")

/-- Paths removed by `rm -f *.sqlite *.sqlite-wal *.sqlite-shm auth.json .lock`:
top-level entries matched by one of the globs (which skip dotfiles) or
one of the two literal names. -/
def isRmFTarget (path : String) : Bool :=
  (!path.contains '/') &&
    (((!path.startsWith (".")) &&
       (path.endsWith (".sqlite") || path.endsWith (".sqlite-wal") ||
        path.endsWith (".sqlite-shm")))
     || path = ("auth.json") || path = (".lock"))

/-- Outcome of one invocation of the cleanup command: the surviving
listing of `$CODEX_HOME` and the command's exit code. -/
structure CleanupResult where
  files : List String
  exitCode : ℕ
deriving DecidableEq

/-- Semantics of `codexCleanupCommand` against a listing of
`$CODEX_HOME`'s contents: both `rm` invocations carry force flags
(`-rf` / `-f` with stderr discarded), so targets that do not exist are
ignored and the removals exit 0 regardless of what was present; the
compound command's exit status is that of the final
`ls -la "$CODEX_HOME"`, which succeeds whenever the home directory
itself exists — which the listing presumes — so the exit code is 0 for
every input listing. -/
def codexCleanupStep (files : List String) : CleanupResult :=
  { files := (files.filter (fun p => !isRmRfTarget p)).filter (fun p => !isRmFTarget p),
    exitCode := 0 }

/-- Ambient process environment containing only an OpenRouter key, for
witnesses. -/
def ambientWithOpenrouterKey : String → String :=
  fun k => if k = ("OPENROUTER_API_KEY") then "sk-or-v1-test-key" else ""

/-- Empty ambient process environment. -/
def ambientEmptyEnv : String → String := fun _ => ""

/-- Ambient process environment carrying a base64 Codex OAuth blob. -/
def ambientCodexOauth : String → String :=
  fun k => if k = ("CODEX_AUTH_JSON_B64") then "QUJDREVG" else ""

/- ------------------------------------------------------------------ -/
/- Lemmas about the restart loop.                                      -/
/- ------------------------------------------------------------------ -/

lemma sumDur_succ (beh : Behavior) (n : ℕ) :
    sumDur beh (n + 1) = sumDur beh n + beh.dur (n + 1) := by
  unfold sumDur
  exact Finset.sum_range_succ _ n

lemma sumDur_one (beh : Behavior) : sumDur beh 1 = beh.dur 1 := by
  unfold sumDur
  simp

lemma restartLoop_allotted_ge_min (cfg : RunConfig) (beh : Behavior) :
    ∀ fuel elapsed runNo, ∀ a ∈ (restartLoop cfg beh fuel elapsed runNo).attempts,
      cfg.minimum_restart_seconds ≤ a.allotted_seconds := by
  intro fuel
  induction fuel with
  | zero =>
    intro elapsed runNo a ha
    simp [restartLoop] at ha
  | succ f ih =>
    intro elapsed runNo a ha
    rw [restartLoop] at ha
    by_cases hrem : cfg.total_seconds - (elapsed : ℤ) < cfg.minimum_restart_seconds
    · rw [if_pos hrem] at ha
      simp at ha
    · rw [if_neg hrem] at ha
      simp only [List.mem_cons] at ha
      rcases ha with rfl | ha
      · exact le_of_not_lt hrem
      · exact ih _ _ a ha

lemma restartLoop_finished_log (cfg : RunConfig) (beh : Behavior) :
    ∀ fuel elapsed runNo,
      (restartLoop cfg beh fuel elapsed runNo).finished = true →
      ∃ pre e rem,
        (restartLoop cfg beh fuel elapsed runNo).log
          = pre ++ [LogEntry.report e rem, LogEntry.stopping] ∧
        rem < cfg.minimum_restart_seconds := by
  intro fuel
  induction fuel with
  | zero =>
    intro elapsed runNo h
    simp [restartLoop] at h
  | succ f ih =>
    intro elapsed runNo h
    rw [restartLoop] at h ⊢
    by_cases hrem : cfg.total_seconds - (elapsed : ℤ) < cfg.minimum_restart_seconds
    · rw [if_pos hrem]
      exact ⟨[], elapsed, cfg.total_seconds - (elapsed : ℤ), rfl, hrem⟩
    · rw [if_neg hrem] at h ⊢
      simp only at h
      obtain ⟨pre, e, rem, hlog, hlt⟩ := ih _ _ h
      refine ⟨LogEntry.report elapsed (cfg.total_seconds - (elapsed : ℤ))
          :: LogEntry.runStarting (runNo + 1) (cfg.total_seconds - (elapsed : ℤ))
          :: LogEntry.output (runNo + 1) (beh.out (runNo + 1))
          :: LogEntry.exited :: pre, e, rem, ?_, hlt⟩
      simp [hlog]

lemma supervisedRun_finished_log (cfg : RunConfig) (beh : Behavior) (fuel : ℕ)
    (h : (supervisedRun cfg beh fuel).finished = true) :
    ∃ pre e rem,
      (supervisedRun cfg beh fuel).log
        = pre ++ [LogEntry.report e rem, LogEntry.stopping,
                  LogEntry.finished (supervisedRun cfg beh fuel).finalRun] ∧
      rem < cfg.minimum_restart_seconds := by
  have hloop : (restartLoop cfg beh fuel (beh.dur 1) 1).finished = true := h
  obtain ⟨pre, e, rem, hlog, hlt⟩ := restartLoop_finished_log cfg beh fuel (beh.dur 1) 1 hloop
  refine ⟨LogEntry.runStarting 1 cfg.total_seconds
      :: LogEntry.output 1 (beh.out 1)
      :: LogEntry.exited :: pre, e, rem, ?_, hlt⟩
  have hfin : (supervisedRun cfg beh fuel).finalRun
      = (restartLoop cfg beh fuel (beh.dur 1) 1).finalRun := rfl
  rw [hfin]
  show LogEntry.runStarting 1 cfg.total_seconds
      :: LogEntry.output 1 (beh.out 1)
      :: LogEntry.exited
      :: ((restartLoop cfg beh fuel (beh.dur 1) 1).log
           ++ (if (restartLoop cfg beh fuel (beh.dur 1) 1).finished then
                 [LogEntry.finished (restartLoop cfg beh fuel (beh.dur 1) 1).finalRun]
               else [])) = _
  rw [hloop, hlog]
  simp

lemma restartLoop_zeroBeh_not_finished :
    ∀ fuel runNo, (restartLoop ⟨100, 30⟩ zeroBeh fuel 0 runNo).finished = false := by
  intro fuel
  induction fuel with
  | zero => intro runNo; rfl
  | succ f ih =>
    intro runNo
    rw [restartLoop, if_neg (by decide)]
    show (restartLoop ⟨100, 30⟩ zeroBeh f (0 + zeroBeh.dur (runNo + 1)) (runNo + 1)).finished
        = false
    simpa [zeroBeh] using ih (runNo + 1)

lemma restartLoop_finished_of_pos_dur (cfg : RunConfig) (beh : Behavior)
    (hdur : ∀ i, 1 ≤ beh.dur i) :
    ∀ (fuel elapsed runNo : ℕ), 1 ≤ fuel →
      cfg.total_seconds - cfg.minimum_restart_seconds - (elapsed : ℤ) + 2 ≤ (fuel : ℤ) →
      (restartLoop cfg beh fuel elapsed runNo).finished = true := by
  intro fuel
  induction fuel with
  | zero => intro elapsed runNo h1 _; exact absurd h1 (by decide)
  | succ f ih =>
    intro elapsed runNo _ hb
    rw [restartLoop]
    by_cases hrem : cfg.total_seconds - (elapsed : ℤ) < cfg.minimum_restart_seconds
    · rw [if_pos hrem]
    · rw [if_neg hrem]
      show (restartLoop cfg beh f (elapsed + beh.dur (runNo + 1)) (runNo + 1)).finished = true
      have hd : (1 : ℤ) ≤ (beh.dur (runNo + 1) : ℤ) := by exact_mod_cast hdur (runNo + 1)
      have hrem' : cfg.minimum_restart_seconds ≤ cfg.total_seconds - (elapsed : ℤ) :=
        le_of_not_lt hrem
      have hb' : cfg.total_seconds - cfg.minimum_restart_seconds - (elapsed : ℤ) + 2
          ≤ (f : ℤ) + 1 := by
        push_cast at hb
        omega
      apply ih (elapsed + beh.dur (runNo + 1)) (runNo + 1)
      · omega
      · push_cast
        omega

lemma restartLoop_allotted_eq (cfg : RunConfig) (beh : Behavior) :
    ∀ (fuel runNo : ℕ), ∀ a ∈ (restartLoop cfg beh fuel (sumDur beh runNo) runNo).attempts,
      a.allotted_seconds = cfg.total_seconds - (sumDur beh (a.sequence_number - 1) : ℤ) := by
  intro fuel
  induction fuel with
  | zero =>
    intro runNo a ha
    simp [restartLoop] at ha
  | succ f ih =>
    intro runNo a ha
    rw [restartLoop] at ha
    by_cases hrem : cfg.total_seconds - ((sumDur beh runNo : ℕ) : ℤ)
        < cfg.minimum_restart_seconds
    · rw [if_pos hrem] at ha
      simp at ha
    · rw [if_neg hrem] at ha
      simp only [List.mem_cons] at ha
      rcases ha with rfl | ha
      · simp
      · have hrec : sumDur beh runNo + beh.dur (runNo + 1) = sumDur beh (runNo + 1) :=
          (sumDur_succ beh runNo).symm
        rw [hrec] at ha
        exact ih (runNo + 1) a ha

lemma restartLoop_instr (cfg : RunConfig) (beh : Behavior) :
    ∀ (fuel elapsed runNo : ℕ), ∀ a ∈ (restartLoop cfg beh fuel elapsed runNo).attempts,
      a.instr = Instr.continuation ∧ runNo + 1 ≤ a.sequence_number := by
  intro fuel
  induction fuel with
  | zero =>
    intro elapsed runNo a ha
    simp [restartLoop] at ha
  | succ f ih =>
    intro elapsed runNo a ha
    rw [restartLoop] at ha
    by_cases hrem : cfg.total_seconds - (elapsed : ℤ) < cfg.minimum_restart_seconds
    · rw [if_pos hrem] at ha
      simp at ha
    · rw [if_neg hrem] at ha
      simp only [List.mem_cons] at ha
      rcases ha with rfl | ha
      · exact ⟨rfl, le_refl _⟩
      · obtain ⟨hi, hs⟩ := ih _ _ a ha
        exact ⟨hi, by omega⟩

lemma restartLoop_outputs (cfg : RunConfig) (beh : Behavior) :
    ∀ (fuel elapsed runNo : ℕ),
      (restartLoop cfg beh fuel elapsed runNo).log.filterMap LogEntry.outputText
        = (List.range (restartLoop cfg beh fuel elapsed runNo).attempts.length).map
            (fun i => beh.out (runNo + 1 + i)) := by
  intro fuel
  induction fuel with
  | zero =>
    intro elapsed runNo
    rfl
  | succ f ih =>
    intro elapsed runNo
    rw [restartLoop]
    by_cases hrem : cfg.total_seconds - (elapsed : ℤ) < cfg.minimum_restart_seconds
    · rw [if_pos hrem]
      rfl
    · rw [if_neg hrem]
      show (LogEntry.report elapsed (cfg.total_seconds - (elapsed : ℤ))
          :: LogEntry.runStarting (runNo + 1) (cfg.total_seconds - (elapsed : ℤ))
          :: LogEntry.output (runNo + 1) (beh.out (runNo + 1))
          :: LogEntry.exited
          :: (restartLoop cfg beh f (elapsed + beh.dur (runNo + 1)) (runNo + 1)).log
          ).filterMap LogEntry.outputText = _
      simp only [List.filterMap_cons, LogEntry.outputText, List.length_cons]
      rw [ih (elapsed + beh.dur (runNo + 1)) (runNo + 1)]
      rw [List.range_succ_eq_map]
      simp only [List.map_cons, List.map_map, Function.comp, Nat.add_zero]
      congr 1
      apply List.map_congr_left
      intro a _
      exact congrArg beh.out (by omega)

lemma restartLoop_status_blind (cfg : RunConfig) (beh1 beh2 : Behavior)
    (hdur : beh1.dur = beh2.dur) (hout : beh1.out = beh2.out) :
    ∀ (fuel elapsed runNo : ℕ),
      (restartLoop cfg beh1 fuel elapsed runNo).log
        = (restartLoop cfg beh2 fuel elapsed runNo).log ∧
      (restartLoop cfg beh1 fuel elapsed runNo).attempts.map Attempt.shape
        = (restartLoop cfg beh2 fuel elapsed runNo).attempts.map Attempt.shape ∧
      (restartLoop cfg beh1 fuel elapsed runNo).finalRun
        = (restartLoop cfg beh2 fuel elapsed runNo).finalRun ∧
      (restartLoop cfg beh1 fuel elapsed runNo).finished
        = (restartLoop cfg beh2 fuel elapsed runNo).finished := by
  intro fuel
  induction fuel with
  | zero =>
    intro elapsed runNo
    exact ⟨rfl, rfl, rfl, rfl⟩
  | succ f ih =>
    intro elapsed runNo
    by_cases hrem : cfg.total_seconds - (elapsed : ℤ) < cfg.minimum_restart_seconds
    · rw [restartLoop, restartLoop, if_pos hrem, if_pos hrem]
      exact ⟨rfl, rfl, rfl, rfl⟩
    · rw [restartLoop, restartLoop, if_neg hrem, if_neg hrem, hdur, hout]
      obtain ⟨hlog, hatt, hrun, hfin⟩ := ih (elapsed + beh2.dur (runNo + 1)) (runNo + 1)
      simp only [List.map_cons]
      rw [hlog, hatt]
      exact ⟨rfl, rfl, hrun, hfin⟩

lemma continuationInstruction_ne (s : String) : continuationInstruction s ≠ s := by
  intro h
  have hlen : (continuationPreamble ++ s).length = s.length := congrArg String.length h
  rw [String.length_append] at hlen
  have hp : 0 < continuationPreamble.length := by decide
  omega

/- ------------------------------------------------------------------ -/
/- Claim theorems.                                                     -/
/- ------------------------------------------------------------------ -/

/-- C1: in the supervised run loop, a new attempt starts only when the
remaining budget (total minus elapsed wall-clock seconds) is at least
`minimum_restart_seconds` — every restart attempt's `timeout` budget,
which is exactly the remaining value computed in the iteration that
launched it, is at least the threshold — and when the loop stops on the
`remaining < minimum_restart_seconds` check this is the run's final
state: the log ends with that report, the stop message, and the final
"Finished after N runs" line, with no further attempt. -/
theorem claim_C1_restart_guard (cfg : RunConfig) (beh : Behavior) (fuel : ℕ) :
    (∀ a ∈ (supervisedRun cfg beh fuel).attempts, 2 ≤ a.sequence_number →
      cfg.minimum_restart_seconds ≤ a.allotted_seconds) ∧
    ((supervisedRun cfg beh fuel).finished = true →
      ∃ pre e rem,
        (supervisedRun cfg beh fuel).log
          = pre ++ [LogEntry.report e rem, LogEntry.stopping,
                    LogEntry.finished (supervisedRun cfg beh fuel).finalRun] ∧
        rem < cfg.minimum_restart_seconds) := by
  constructor
  · intro a ha h2
    have : a ∈ (⟨1, Instr.initial, cfg.total_seconds, beh.status 1⟩ : Attempt)
        :: (restartLoop cfg beh fuel (beh.dur 1) 1).attempts := ha
    rcases List.mem_cons.mp this with rfl | hmem
    · simp at h2
    · exact restartLoop_allotted_ge_min cfg beh fuel (beh.dur 1) 1 a hmem
  · exact supervisedRun_finished_log cfg beh fuel

/-- Witness for C1 at a concrete run: budget 100, threshold 30, every
attempt taking 40 seconds.  The second attempt is launched with 60
seconds, which is at least the threshold, and the run is finished with
the final report below the threshold. -/
theorem claim_C1_restart_guard_witness :
    (30 : ℤ) ≤ (Attempt.mk 2 Instr.continuation 60 ExitStatus.completed).allotted_seconds ∧
    (∃ pre e rem,
      (supervisedRun ⟨100, 30⟩ fortyBeh 5).log
        = pre ++ [LogEntry.report e rem, LogEntry.stopping,
                  LogEntry.finished (supervisedRun ⟨100, 30⟩ fortyBeh 5).finalRun] ∧
      rem < (30 : ℤ)) := by
  have h := claim_C1_restart_guard ⟨100, 30⟩ fortyBeh 5
  exact ⟨h.1 (Attempt.mk 2 Instr.continuation 60 ExitStatus.completed) (by decide) (by decide),
         h.2 (by decide)⟩

/-- C2 counterexample: with `total_seconds = 30` equal to
`minimum_restart_seconds = 30` and a first attempt that exits instantly
(0 wall-clock seconds), the check `remaining < minimum_restart_seconds`
is `30 < 30`, which is false, so the loop launches a second attempt — the
claim's "exactly one attempt ... including when total_seconds equals
minimum_restart_seconds" fails on the code. -/
theorem claim_C2_counterexample :
    (2 : ℕ) ≤ (supervisedRun ⟨30, 30⟩ zeroBeh 1).attempts.length ∧
    (supervisedRun ⟨30, 30⟩ zeroBeh 1).attempts.get? 1
      = some ⟨2, Instr.continuation, 30, ExitStatus.completed⟩ := by
  decide

/-- C2 (amended): if `total_seconds < minimum_restart_seconds`, or
`total_seconds ≤ minimum_restart_seconds` and the first attempt consumes
at least one second of wall-clock time, then exactly one attempt runs
regardless of the first attempt's exit status: the remaining-budget
check, evaluated only after the first attempt, stops the loop.  (At
exact equality with a 0-second first attempt the code restarts instead.) -/
theorem claim_C2_single_attempt (cfg : RunConfig) (beh : Behavior) (fuel : ℕ)
    (hfuel : 1 ≤ fuel)
    (h : cfg.total_seconds < cfg.minimum_restart_seconds ∨
         (cfg.total_seconds ≤ cfg.minimum_restart_seconds ∧ 1 ≤ beh.dur 1)) :
    (supervisedRun cfg beh fuel).attempts.length = 1 ∧
    (supervisedRun cfg beh fuel).finished = true := by
  obtain ⟨f, rfl⟩ : ∃ f, fuel = f + 1 := ⟨fuel - 1, by omega⟩
  have hrem : cfg.total_seconds - ((beh.dur 1 : ℕ) : ℤ) < cfg.minimum_restart_seconds := by
    rcases h with h | ⟨h1, h2⟩
    · have h0 : (0 : ℤ) ≤ ((beh.dur 1 : ℕ) : ℤ) := Int.natCast_nonneg _
      omega
    · have h1' : (1 : ℤ) ≤ ((beh.dur 1 : ℕ) : ℤ) := by exact_mod_cast h2
      omega
  constructor
  · show (Attempt.mk 1 Instr.initial cfg.total_seconds (beh.status 1)
        :: (restartLoop cfg beh (f + 1) (beh.dur 1) 1).attempts).length = 1
    rw [restartLoop, if_pos hrem]
    rfl
  · show (restartLoop cfg beh (f + 1) (beh.dur 1) 1).finished = true
    rw [restartLoop, if_pos hrem]

/-- Witness for the amended C2: budget 20 below the threshold 30, the
lone attempt exits instantly, and still exactly one attempt runs. -/
theorem claim_C2_single_attempt_witness :
    (supervisedRun ⟨20, 30⟩ zeroBeh 1).attempts.length = 1 ∧
    (supervisedRun ⟨20, 30⟩ zeroBeh 1).finished = true :=
  claim_C2_single_attempt ⟨20, 30⟩ zeroBeh 1 (le_refl 1) (Or.inl (by decide))

/-- C3 counterexample: with `total_seconds = 100`,
`minimum_restart_seconds = 30` and every attempt consuming exactly 0
wall-clock seconds, the elapsed time never grows, `remaining` stays at
100 forever, and the loop never reaches its stop check — the run does
not terminate, contradicting the claim that it stops after finitely many
attempts. -/
theorem claim_C3_counterexample : ¬ supervisedTerminates ⟨100, 30⟩ zeroBeh := by
  rintro ⟨fuel, hf⟩
  have h0 : (supervisedRun ⟨100, 30⟩ zeroBeh fuel).finished
      = (restartLoop ⟨100, 30⟩ zeroBeh fuel (zeroBeh.dur 1) 1).finished := rfl
  rw [h0] at hf
  have hz : zeroBeh.dur 1 = 0 := rfl
  rw [hz] at hf
  rw [restartLoop_zeroBeh_not_finished fuel 1] at hf
  exact Bool.noConfusion hf

/-- C3 (amended): with `total_seconds = 100` and
`minimum_restart_seconds = 30`, if every attempt consumes at least one
second of wall-clock time then the loop terminates after finitely many
attempts, and the last recorded `remaining` before stopping is below 30.
(With literally 0-second attempts the code loops forever instead.) -/
theorem claim_C3_termination (beh : Behavior) (hdur : ∀ i, 1 ≤ beh.dur i) :
    ∃ fuel, (supervisedRun ⟨100, 30⟩ beh fuel).finished = true ∧
      ∃ pre e rem,
        (supervisedRun ⟨100, 30⟩ beh fuel).log
          = pre ++ [LogEntry.report e rem, LogEntry.stopping,
                    LogEntry.finished (supervisedRun ⟨100, 30⟩ beh fuel).finalRun] ∧
        rem < 30 := by
  refine ⟨102, ?_, ?_⟩
  · show (restartLoop ⟨100, 30⟩ beh 102 (beh.dur 1) 1).finished = true
    apply restartLoop_finished_of_pos_dur ⟨100, 30⟩ beh hdur 102 (beh.dur 1) 1 (by decide)
    have h0 : (0 : ℤ) ≤ ((beh.dur 1 : ℕ) : ℤ) := Int.natCast_nonneg _
    show (100 : ℤ) - 30 - ((beh.dur 1 : ℕ) : ℤ) + 2 ≤ (102 : ℕ)
    push_cast
    omega
  · have hfin : (supervisedRun ⟨100, 30⟩ beh 102).finished = true := by
      show (restartLoop ⟨100, 30⟩ beh 102 (beh.dur 1) 1).finished = true
      apply restartLoop_finished_of_pos_dur ⟨100, 30⟩ beh hdur 102 (beh.dur 1) 1 (by decide)
      have h0 : (0 : ℤ) ≤ ((beh.dur 1 : ℕ) : ℤ) := Int.natCast_nonneg _
      show (100 : ℤ) - 30 - ((beh.dur 1 : ℕ) : ℤ) + 2 ≤ (102 : ℕ)
      push_cast
      omega
    exact supervisedRun_finished_log ⟨100, 30⟩ beh 102 hfin

/-- Witness for the amended C3: one-second attempts terminate with the
final recorded remaining below 30. -/
theorem claim_C3_termination_witness :
    ∃ fuel, (supervisedRun ⟨100, 30⟩ onesBeh fuel).finished = true ∧
      ∃ pre e rem,
        (supervisedRun ⟨100, 30⟩ onesBeh fuel).log
          = pre ++ [LogEntry.report e rem, LogEntry.stopping,
                    LogEntry.finished (supervisedRun ⟨100, 30⟩ onesBeh fuel).finalRun] ∧
        rem < 30 :=
  claim_C3_termination onesBeh (fun _ => le_refl 1)

/-- C4: the first attempt is executed with an allotted time equal to
`total_seconds` (`timeout $QWEN_TIMEOUT`), and every subsequent attempt
with an allotted time equal to the remaining budget computed once in the
loop iteration immediately before it starts — `total_seconds` minus the
wall-clock time consumed by all earlier attempts. -/
theorem claim_C4_allotted (cfg : RunConfig) (beh : Behavior) (fuel : ℕ) :
    (supervisedRun cfg beh fuel).attempts.head?
      = some ⟨1, Instr.initial, cfg.total_seconds, beh.status 1⟩ ∧
    (∀ a ∈ (supervisedRun cfg beh fuel).attempts, 2 ≤ a.sequence_number →
      a.allotted_seconds
        = cfg.total_seconds - (sumDur beh (a.sequence_number - 1) : ℤ)) := by
  constructor
  · rfl
  · intro a ha h2
    have ha' : a ∈ (Attempt.mk 1 Instr.initial cfg.total_seconds (beh.status 1))
        :: (restartLoop cfg beh fuel (beh.dur 1) 1).attempts := ha
    rcases List.mem_cons.mp ha' with rfl | hmem
    · simp at h2
    · have h1 : beh.dur 1 = sumDur beh 1 := (sumDur_one beh).symm
      rw [h1] at hmem
      exact restartLoop_allotted_eq cfg beh fuel 1 a hmem

/-- Witness for C4: in the 100-second run with 40-second attempts, the
first attempt is allotted the full 100 seconds and the second attempt is
allotted 100 minus the 40 seconds consumed before it, i.e. 60. -/
theorem claim_C4_allotted_witness :
    (supervisedRun ⟨100, 30⟩ fortyBeh 5).attempts.head?
      = some ⟨1, Instr.initial, 100, ExitStatus.completed⟩ ∧
    (Attempt.mk 2 Instr.continuation 60 ExitStatus.completed).allotted_seconds
      = (100 : ℤ) - (sumDur fortyBeh 1 : ℤ) := by
  have h := claim_C4_allotted ⟨100, 30⟩ fortyBeh 5
  exact ⟨h.1, h.2 (Attempt.mk 2 Instr.continuation 60 ExitStatus.completed)
    (by decide) (by decide)⟩

/-- C5: the restart decision never depends on an attempt's exit status.
Two runs with identical durations and outputs but arbitrary different
exit statuses produce the same log, the same attempts up to the recorded
status field, the same final run counter, and stop identically. -/
theorem claim_C5_status_blind (cfg : RunConfig) (dur : ℕ → ℕ) (out : ℕ → String)
    (s1 s2 : ℕ → ExitStatus) (fuel : ℕ) :
    (supervisedRun cfg ⟨dur, out, s1⟩ fuel).log
      = (supervisedRun cfg ⟨dur, out, s2⟩ fuel).log ∧
    (supervisedRun cfg ⟨dur, out, s1⟩ fuel).attempts.map Attempt.shape
      = (supervisedRun cfg ⟨dur, out, s2⟩ fuel).attempts.map Attempt.shape ∧
    (supervisedRun cfg ⟨dur, out, s1⟩ fuel).finalRun
      = (supervisedRun cfg ⟨dur, out, s2⟩ fuel).finalRun ∧
    (supervisedRun cfg ⟨dur, out, s1⟩ fuel).finished
      = (supervisedRun cfg ⟨dur, out, s2⟩ fuel).finished := by
  obtain ⟨hlog, hatt, hrun, hfin⟩ :=
    restartLoop_status_blind cfg ⟨dur, out, s1⟩ ⟨dur, out, s2⟩ rfl rfl fuel (dur 1) 1
  simp only [supervisedRun, List.map_cons]
  rw [hlog, hatt, hrun, hfin]
  exact ⟨rfl, rfl, rfl, rfl⟩

/-- C6: the first attempt's command is built from the initial
instruction and every subsequent attempt's command from the continuation
instruction, which prepends the resume preamble to the initial
instruction and is therefore a string distinct from it. -/
theorem claim_C6_instructions (cfg : RunConfig) (beh : Behavior) (fuel : ℕ)
    (instruction : String) :
    (∀ a ∈ (supervisedRun cfg beh fuel).attempts,
      (a.sequence_number = 1 → a.instr = Instr.initial) ∧
      (2 ≤ a.sequence_number → a.instr = Instr.continuation)) ∧
    continuationInstruction instruction ≠ instruction := by
  constructor
  · intro a ha
    have ha' : a ∈ (Attempt.mk 1 Instr.initial cfg.total_seconds (beh.status 1))
        :: (restartLoop cfg beh fuel (beh.dur 1) 1).attempts := ha
    rcases List.mem_cons.mp ha' with rfl | hmem
    · refine ⟨fun _ => rfl, fun h2 => ?_⟩
      simp at h2
    · have h := restartLoop_instr cfg beh fuel (beh.dur 1) 1 a hmem
      refine ⟨fun h1 => ?_, fun _ => h.1⟩
      exfalso
      have h2 := h.2
      omega
  · exact continuationInstruction_ne instruction

/-- Witness for C6: in the concrete 100-second run, the second attempt
carries the continuation instruction, and for a concrete instruction the
continuation string differs from the initial one. -/
theorem claim_C6_instructions_witness :
    (Attempt.mk 2 Instr.continuation 60 ExitStatus.completed).instr
        = Instr.continuation ∧
    continuationInstruction ("train woodcutting") ≠ ("train woodcutting") := by
  have h := claim_C6_instructions ⟨100, 30⟩ fortyBeh 5 ("train woodcutting")
  exact ⟨(h.1 (Attempt.mk 2 Instr.continuation 60 ExitStatus.completed)
    (by decide)).2 (by decide), h.2⟩

/-- C7: the run log is an attempt-ordered stream — filtering the log down
to attempt outputs yields exactly the outputs of attempts `1..n` in
order, one complete block per attempt, never interleaved or reordered. -/
theorem claim_C7_log_order (cfg : RunConfig) (beh : Behavior) (fuel : ℕ) :
    (supervisedRun cfg beh fuel).log.filterMap LogEntry.outputText
      = (List.range (supervisedRun cfg beh fuel).attempts.length).map
          (fun i => beh.out (i + 1)) := by
  have htail : List.filterMap LogEntry.outputText
      (if (restartLoop cfg beh fuel (beh.dur 1) 1).finished then
        [LogEntry.finished (restartLoop cfg beh fuel (beh.dur 1) 1).finalRun]
      else []) = [] := by
    by_cases hfin : (restartLoop cfg beh fuel (beh.dur 1) 1).finished
    · rw [if_pos hfin]
      rfl
    · rw [if_neg hfin]
      rfl
  simp only [supervisedRun, List.filterMap_cons, LogEntry.outputText,
    List.filterMap_append, htail, List.append_nil, List.length_cons]
  rw [restartLoop_outputs cfg beh fuel (beh.dur 1) 1]
  rw [List.range_succ_eq_map]
  simp only [List.map_cons, List.map_map, Function.comp, Nat.add_zero]
  congr 1
  apply List.map_congr_left
  intro a _
  exact congrArg beh.out (by omega)

/- ------------------------------------------------------------------ -/
/- Lemmas about the command construction.                              -/
/- ------------------------------------------------------------------ -/

lemma dictGet_dictSet_self (d : List (String × String)) (k v : String) :
    dictGet (dictSet d k v) k = some v := by
  induction d with
  | nil => simp [dictSet, dictGet]
  | cons kv rest ih =>
    by_cases h : kv.1 = k
    · simp [dictSet, dictGet, h]
    · simp [dictSet, dictGet, h, ih]

lemma dictGet_dictSet_ne (d : List (String × String)) (k k' v : String) (h : k' ≠ k) :
    dictGet (dictSet d k v) k' = dictGet d k' := by
  induction d with
  | nil => simp [dictSet, dictGet, Ne.symm h]
  | cons kv rest ih =>
    by_cases hk : kv.1 = k
    · simp [dictSet, dictGet, hk, Ne.symm h]
    · simp [dictSet, dictGet, hk, ih]

lemma dictGet_dictPop_self (d : List (String × String)) (k : String) :
    dictGet (dictPop d k) k = none := by
  induction d with
  | nil => rfl
  | cons kv rest ih =>
    by_cases h : kv.1 = k
    · simp [dictPop, h, ih]
    · simp [dictPop, dictGet, h, ih]

lemma dictGet_dictPop_ne (d : List (String × String)) (k k' : String) (h : k' ≠ k) :
    dictGet (dictPop d k) k' = dictGet d k' := by
  induction d with
  | nil => rfl
  | cons kv rest ih =>
    by_cases hk : kv.1 = k
    · simp [dictPop, dictGet, hk, Ne.symm h, ih]
    · simp [dictPop, dictGet, hk, ih]

lemma applyModalTimeout_map_env (tmo : Option ℤ) (l : List ExecInput) :
    (applyModalTimeout tmo l).map ExecInput.env = l.map ExecInput.env := by
  unfold applyModalTimeout
  by_cases hc : (truthyTimeout tmo && decide (1 < l.length)) = true
  · rw [if_pos hc]
    rcases l with _ | ⟨a, t⟩
    · rfl
    · have hne : a :: t ≠ [] := by simp
      rw [List.getLast?_eq_getLast (a :: t) hne]
      show ((a :: t).dropLast
          ++ [ExecInput.mk ((a :: t).getLast hne).command ((a :: t).getLast hne).env
               ((a :: t).getLast hne).cwd tmo]).map ExecInput.env = _
      rw [List.map_append]
      conv_rhs => rw [← List.dropLast_append_getLast hne, List.map_append]
      rfl
  · rw [if_neg hc]

lemma applyModalTimeout_head (tmo : Option ℤ) (a b : ExecInput) (t : List ExecInput) :
    (applyModalTimeout tmo (a :: b :: t)).head? = some a := by
  unfold applyModalTimeout
  by_cases hc : (truthyTimeout tmo && decide (1 < (a :: b :: t).length)) = true
  · rw [if_pos hc]
    have hne : a :: b :: t ≠ [] := by simp
    rw [List.getLast?_eq_getLast (a :: b :: t) hne]
    rfl
  · rw [if_neg hc]
    rfl

lemma cleanup_filter_idem (l : List String) :
    (((l.filter (fun p => !isRmRfTarget p)).filter (fun p => !isRmFTarget p)).filter
        (fun p => !isRmRfTarget p)).filter (fun p => !isRmFTarget p)
      = (l.filter (fun p => !isRmRfTarget p)).filter (fun p => !isRmFTarget p) := by
  induction l with
  | nil => rfl
  | cons a t ih =>
    cases h1 : isRmRfTarget a <;> cases h2 : isRmFTarget a <;>
      simp [List.filter_cons, h1, h2, ih, -List.filter_filter]

lemma get?_env_pair (l : List ExecInput) (i : ℕ) (e : List (String × String))
    (h : (l.map ExecInput.env).get? i = some e) :
    ((l.get? i).map (fun c => (dictGet c.env ("CODEX_AUTH_JSON_B64"),
        dictGet c.env ("OPENAI_API_KEY"))))
      = some (dictGet e ("CODEX_AUTH_JSON_B64"), dictGet e ("OPENAI_API_KEY")) := by
  rw [List.get?_map] at h
  rcases hgt : l.get? i with _ | c
  · rw [hgt] at h
    exact absurd h (by simp)
  · rw [hgt] at h
    have hce : c.env = e := by simpa using h
    simp [hce]

lemma opencode_map_env (defaultModel logPre logFile snapshotKey : String)
    (ambient : String → String) (modelNameAttr : String)
    (mcpServers : List McpServer) (instruction : String) :
    (opencodeCreateRunAgentCommands defaultModel logPre logFile snapshotKey ambient
        modelNameAttr mcpServers instruction).map ExecInput.env
      = [opencodeEnv (resolveOpenrouterKey snapshotKey ambient),
         opencodeEnv (resolveOpenrouterKey snapshotKey ambient)] := rfl

/-- C8: the post-run cleanup step is idempotent: running it again on the
listing it left behind removes nothing further and still exits 0, and
its exit code does not depend on whether the targeted files existed
(both `rm` invocations use force flags, so absence is not an error). -/
theorem claim_C8_cleanup_idempotent (files : List String) :
    (codexCleanupStep (codexCleanupStep files).files).exitCode = 0 ∧
    (codexCleanupStep (codexCleanupStep files).files).files
      = (codexCleanupStep files).files ∧
    (∀ other : List String,
      (codexCleanupStep files).exitCode = (codexCleanupStep other).exitCode) :=
  ⟨rfl, cleanup_filter_idem files, fun _ => rfl⟩

/-- C9 counterexample: with an empty class-load snapshot, the OpenCode
adapter falls back to reading `OPENROUTER_API_KEY` from the ambient
process environment at call time, so two invocations with identical
explicit inputs but different ambient environments produce different
command lists — the claim that the commands are identical "regardless of
the operating-system environment at call time" fails on the code. -/
theorem claim_C9_counterexample :
    opencodeCreateRunAgentCommands ("openrouter/moonshotai/kimi-k2.5") ("kimi")
        ("opencode-kimi.txt") ("") ambientWithOpenrouterKey ("") [] ("train woodcutting")
      ≠ opencodeCreateRunAgentCommands ("openrouter/moonshotai/kimi-k2.5") ("kimi")
        ("opencode-kimi.txt") ("") ambientEmptyEnv ("") [] ("train woodcutting") := by
  intro h
  have h2 := congrArg (List.map ExecInput.env) h
  rw [opencode_map_env, opencode_map_env] at h2
  have h3 : opencodeEnv (resolveOpenrouterKey ("") ambientWithOpenrouterKey)
      = opencodeEnv (resolveOpenrouterKey ("") ambientEmptyEnv) := by
    have h4 := congrArg List.head? h2
    simpa using h4
  exact absurd h3 (by decide)

/-- C9 (amended): each run receives an explicit environment mapping, and
whenever the class-load snapshot of `OPENROUTER_API_KEY` is non-empty
the produced command list is independent of the operating-system
environment at call time; when the snapshot is empty the adapter reads
the ambient environment at call time instead (`snapshot or os.environ`),
so the commands can then differ between environments. -/
theorem claim_C9_explicit_env (defaultModel logPre logFile snapshotKey : String)
    (amb1 amb2 : String → String) (modelNameAttr : String)
    (mcpServers : List McpServer) (instruction : String) (h : snapshotKey ≠ "") :
    opencodeCreateRunAgentCommands defaultModel logPre logFile snapshotKey amb1
        modelNameAttr mcpServers instruction
      = opencodeCreateRunAgentCommands defaultModel logPre logFile snapshotKey amb2
        modelNameAttr mcpServers instruction := by
  simp only [opencodeCreateRunAgentCommands, resolveOpenrouterKey, if_neg h]

/-- Witness for the amended C9: with a non-empty snapshot key the
command lists agree across two different ambient environments. -/
theorem claim_C9_explicit_env_witness :
    opencodeCreateRunAgentCommands ("openrouter/moonshotai/kimi-k2.5") ("kimi")
        ("opencode-kimi.txt") ("sk-or-snapshot-key") ambientWithOpenrouterKey ("") []
        ("train woodcutting")
      = opencodeCreateRunAgentCommands ("openrouter/moonshotai/kimi-k2.5") ("kimi")
        ("opencode-kimi.txt") ("sk-or-snapshot-key") ambientEmptyEnv ("") []
        ("train woodcutting") :=
  claim_C9_explicit_env _ _ _ _ _ _ _ _ _ (by decide)

/-- C10: whenever `CODEX_AUTH_JSON_B64` is non-empty in the ambient
environment and the base class produced at least two commands, the Codex
adapter's command list has `CODEX_AUTH_JSON_B64` present and
`OPENAI_API_KEY` absent in both the setup command's environment and the
run command's environment. -/
theorem claim_C10_oauth_env (ambient : String → String) (runTimeoutSec : Option ℤ)
    (mcpCommand : String) (c0 c1 : ExecInput) (rest : List ExecInput)
    (hb : ambient ("CODEX_AUTH_JSON_B64") ≠ "") :
    ((codexCreateRunAgentCommands ambient runTimeoutSec mcpCommand
        (c0 :: c1 :: rest)).get? 0).map
        (fun c => (dictGet c.env ("CODEX_AUTH_JSON_B64"), dictGet c.env ("OPENAI_API_KEY")))
      = some (some (ambient ("CODEX_AUTH_JSON_B64")), none) ∧
    ((codexCreateRunAgentCommands ambient runTimeoutSec mcpCommand
        (c0 :: c1 :: rest)).get? 1).map
        (fun c => (dictGet c.env ("CODEX_AUTH_JSON_B64"), dictGet c.env ("OPENAI_API_KEY")))
      = some (some (ambient ("CODEX_AUTH_JSON_B64")), none) := by
  have hbne : ¬ (ambient ("CODEX_AUTH_JSON_B64") = "") := hb
  have hB : ("CODEX_AUTH_JSON_B64" : String) ≠ ("OPENAI_API_KEY") := by decide
  have hO : ("OPENAI_API_KEY" : String) ≠ ("CODEX_AUTH_JSON_B64") := by decide
  have hlist : codexCreateRunAgentCommands ambient runTimeoutSec mcpCommand
      (c0 :: c1 :: rest)
      = applyModalTimeout runTimeoutSec
          (ExecInput.mk (if mcpCommand = "" then codexOauthSetupCommand
              else codexOauthSetupCommand ++ "\n" ++ mcpCommand)
            (dictPop (dictSet c0.env ("CODEX_AUTH_JSON_B64")
                (ambient ("CODEX_AUTH_JSON_B64"))) ("OPENAI_API_KEY")) none none
           :: ExecInput.mk c1.command
               (dictSet (dictPop c1.env ("OPENAI_API_KEY")) ("CODEX_AUTH_JSON_B64")
                 (ambient ("CODEX_AUTH_JSON_B64"))) c1.cwd c1.timeout_sec
           :: rest)
        ++ [ExecInput.mk codexCleanupCommand
             (dictPop (dictSet c0.env ("CODEX_AUTH_JSON_B64")
                (ambient ("CODEX_AUTH_JSON_B64"))) ("OPENAI_API_KEY")) none (some 10)] := by
    simp only [codexCreateRunAgentCommands, if_neg hbne]
    rw [applyModalTimeout_head]
  have henvs : (codexCreateRunAgentCommands ambient runTimeoutSec mcpCommand
      (c0 :: c1 :: rest)).map ExecInput.env
      = dictPop (dictSet c0.env ("CODEX_AUTH_JSON_B64")
            (ambient ("CODEX_AUTH_JSON_B64"))) ("OPENAI_API_KEY")
        :: dictSet (dictPop c1.env ("OPENAI_API_KEY")) ("CODEX_AUTH_JSON_B64")
            (ambient ("CODEX_AUTH_JSON_B64"))
        :: (rest.map ExecInput.env
            ++ [dictPop (dictSet c0.env ("CODEX_AUTH_JSON_B64")
                  (ambient ("CODEX_AUTH_JSON_B64"))) ("OPENAI_API_KEY")]) := by
    rw [hlist, List.map_append, applyModalTimeout_map_env]
    simp
  constructor
  · have h0 := get?_env_pair (codexCreateRunAgentCommands ambient runTimeoutSec mcpCommand
        (c0 :: c1 :: rest)) 0
        (dictPop (dictSet c0.env ("CODEX_AUTH_JSON_B64")
            (ambient ("CODEX_AUTH_JSON_B64"))) ("OPENAI_API_KEY"))
        (by rw [henvs]; rfl)
    rw [h0, dictGet_dictPop_ne _ _ _ hB, dictGet_dictSet_self, dictGet_dictPop_self]
  · have h1 := get?_env_pair (codexCreateRunAgentCommands ambient runTimeoutSec mcpCommand
        (c0 :: c1 :: rest)) 1
        (dictSet (dictPop c1.env ("OPENAI_API_KEY")) ("CODEX_AUTH_JSON_B64")
          (ambient ("CODEX_AUTH_JSON_B64")))
        (by rw [henvs]; rfl)
    rw [h1, dictGet_dictSet_self, dictGet_dictSet_ne _ _ _ _ hO, dictGet_dictPop_self]

/-- Witness for C10 at a concrete call: a two-command base list whose
environments hold only `OPENAI_API_KEY`, an ambient OAuth blob, and a
600-second Modal timeout. -/
theorem claim_C10_oauth_env_witness :
    ((codexCreateRunAgentCommands ambientCodexOauth (some 600) ("")
        (ExecInput.mk ("base-setup") [("OPENAI_API_KEY", "sk-live")] none none
          :: ExecInput.mk ("codex exec") [("OPENAI_API_KEY", "sk-live")] none none
          :: [])).get? 0).map
        (fun c => (dictGet c.env ("CODEX_AUTH_JSON_B64"), dictGet c.env ("OPENAI_API_KEY")))
      = some (some (ambientCodexOauth ("CODEX_AUTH_JSON_B64")), none) ∧
    ((codexCreateRunAgentCommands ambientCodexOauth (some 600) ("")
        (ExecInput.mk ("base-setup") [("OPENAI_API_KEY", "sk-live")] none none
          :: ExecInput.mk ("codex exec") [("OPENAI_API_KEY", "sk-live")] none none
          :: [])).get? 1).map
        (fun c => (dictGet c.env ("CODEX_AUTH_JSON_B64"), dictGet c.env ("OPENAI_API_KEY")))
      = some (some (ambientCodexOauth ("CODEX_AUTH_JSON_B64")), none) :=
  claim_C10_oauth_env ambientCodexOauth (some 600) ("")
    (ExecInput.mk ("base-setup") [("OPENAI_API_KEY", "sk-live")] none none)
    (ExecInput.mk ("codex exec") [("OPENAI_API_KEY", "sk-live")] none none)
    [] (by decide)
